import Mathlib

/-!
Verification development for `plot_locfin_posterior_hmc.py`, a post-hoc
analysis/plotting script for a Bayesian experimental-design study.  The
script's own logic (CLI handling, grid construction, checkpoint loop,
MAP extraction by argmax over a density grid, temporary-file handling,
save/restore of the policy horizon) is embedded shallowly below; the
external numerical libraries (MCMC sampling, kernel density estimation,
image decoding) are abstracted as parameters, since the script only
consumes their outputs.
-/

namespace LocFin

/-- Command-line arguments of the script (the subset relevant here):
`--T-to-plot` (optional int), `--T-step` (default 10), `--bin` (default 50),
`--limits` (default `[-1.5, 1.5]`), `--theta-index` (default 0). -/
structure Args where
  tToPlot : Option Nat
  tStep : Nat
  bin : Nat
  limits : List ℚ
  thetaIndex : Nat
deriving DecidableEq

/-- `tuple([float(x) for x in args.limits])` — the parsed CLI limits. -/
def cliLimits (args : Args) : List ℚ := args.limits.map (fun x => x)

/-- The grid bounding box as the script actually computes it:
`limits = tuple([float(x) for x in args.limits])` immediately followed by
`limits = (-1.5, 1.5)` (the hard-coded override on line 222). -/
def gridLimits (args : Args) : ℚ × ℚ :=
  let limits := cliLimits args
  let limits := ((-3 : ℚ)/2, (3 : ℚ)/2)
  limits

/-- `numpy` linspace-style grid axis: `np.mgrid[slice(a, b, n*1j)]` produces
`n` equally spaced points from `a` to `b`, both endpoints included
(`a + i*(b-a)/(n-1)` for `i = 0, …, n-1`; a single point `a` when `n = 1`). -/
def linspace (a b : ℚ) (n : Nat) : List ℚ :=
  if n = 0 then []
  else if n = 1 then [a]
  else (List.range n).map (fun i : Nat => a + (i : ℚ) * ((b - a) / ((n : ℚ) - 1)))

/-- The columns of `positions = np.vstack([grid[i].ravel() for i in range(p)])`:
all `p`-tuples of axis values, first coordinate varying slowest (C order). -/
def gridPositions : Nat → ℚ → ℚ → Nat → List (List ℚ)
  | 0, _, _, _ => [[]]
  | p + 1, a, b, n =>
      (linspace a b n).flatMap (fun x => (gridPositions p a b n).map (fun rest => x :: rest))

/-- The maximum value of a 1-D array (`0` on the empty array, where numpy
would raise). -/
def listMax : List ℚ → ℚ
  | [] => 0
  | [x] => x
  | x :: y :: ys => max x (listMax (y :: ys))

/-- `numpy.argmax` on a 1-D array: the index of the first occurrence of the
maximum value (numpy documents that ties resolve to the first occurrence). -/
def argmaxIdx (l : List ℚ) : Nat := l.indexOf (listMax l)

/-- `positions[:, pdf.argmax()]` (line 287): the grid point whose density
value is (first) maximal. -/
def map_point (positions : List (List ℚ)) (pdf : List ℚ) : List ℚ :=
  positions.getD (argmaxIdx pdf) []

/-- Python `range(start, stop, step)` for `step ≥ 1`. -/
def rangeStep (start stop step : Nat) : List Nat :=
  (List.range ((stop - start + step - 1) / step)).map (fun i => start + i * step)

/-- `T_to_plot` (lines 225–228): `range(0, ho_model.T+1, T_step)` when
`--T-to-plot` is absent, else `range(0, T_to_plot+1, T_step)`. -/
def computeTtoPlot (args : Args) (hoModelT : Nat) : List Nat :=
  match args.tToPlot with
  | none => rangeStep 0 (hoModelT + 1) args.tStep
  | some t => rangeStep 0 (t + 1) args.tStep

/-- The MCMC kernel classes that appear in the script's imports
(`from pyro.infer.mcmc import MCMC, NUTS`).  NUTS is the gradient-based
No-U-Turn sampler; `HMC` is its fixed-length gradient-based sibling;
`RandomWalk` stands for non-gradient kernels. -/
inductive MCMCKernel
  | NUTS
  | HMC
  | RandomWalk
deriving DecidableEq

/-- Whether a kernel uses gradients of the log-density. -/
def MCMCKernel.gradientBased : MCMCKernel → Bool
  | .NUTS => true
  | .HMC => true
  | .RandomWalk => false

/-- Configuration of one MCMC run. -/
structure MCMCConfig where
  kernel : MCMCKernel
  targetAcceptProb : ℚ
  numSamples : Nat
  warmupSteps : Nat
  numChains : Nat
deriving DecidableEq

/-- The sampler configuration built at lines 274–275:
`NUTS(model, target_accept_prob=0.9)` and
`MCMC(kernel, num_samples=250*p, warmup_steps=200*p, num_chains=4)`. -/
def mcmcConfig (p : Nat) : MCMCConfig :=
  { kernel := MCMCKernel.NUTS
    targetAcceptProb := 9/10
    numSamples := 250 * p
    warmupSteps := 200 * p
    numChains := 4 }

/-- The rendering routines the script can invoke. -/
inductive RenderCall
  | plotTrace
  | plotPosteriorGrid
  | plotVaeDecode
deriving DecidableEq

/-- The mutable state of `__main__` that the claims are about: the loaded
policy model's horizon attribute `ho_model.T`, the accumulators `map_list`
and `f_list`, the configurations of the MCMC runs performed, and the
renderer invocations made. -/
structure MainState where
  hoT : Nat
  mapList : List (List ℚ)
  fList : List (List ℚ)
  mcmcRuns : List MCMCConfig
  renderCalls : List RenderCall
deriving DecidableEq

/-- Lines 232–261: `temp, ho_model.T = ho_model.T, T_to_plot[-1]`, then the
roll-out, the target decodes, `plot_trace(...)`, and `ho_model.T = temp`.
The roll-out and decodes do not touch the accumulators. -/
def rolloutBlock (lastT : Nat) (s : MainState) : MainState :=
  let temp := s.hoT
  let s1 := { s with hoT := lastT }
  let s2 := { s1 with renderCalls := s1.renderCalls ++ [RenderCall.plotTrace] }
  { s2 with hoT := temp }

/-- One iteration of the checkpoint loop (lines 263–291) at checkpoint `T`:
swap `ho_model.T` to `T`, run MCMC (its samples and the Gaussian KDE are
external; `kdeVals T` is `kernel(positions)`, the KDE evaluated on the grid
columns), append `positions[:, pdf.argmax()]` to `map_list` and the density
grid to `f_list`, restore `ho_model.T = temp`. -/
def checkpointStep (p : Nat) (positions : List (List ℚ)) (kdeVals : Nat → List ℚ)
    (T : Nat) (s : MainState) : MainState :=
  let temp := s.hoT
  let s1 := { s with hoT := T }
  let s2 := { s1 with mcmcRuns := s1.mcmcRuns ++ [mcmcConfig p] }
  let pdf := kdeVals T
  let s3 := { s2 with
    mapList := s2.mapList ++ [map_point positions pdf]
    fList := s2.fList ++ [pdf] }
  { s3 with hoT := temp }

/-- The whole checkpoint loop `for T in T_to_plot:`. -/
def checkpointLoop (p : Nat) (positions : List (List ℚ)) (kdeVals : Nat → List ℚ)
    (Ts : List Nat) (s : MainState) : MainState :=
  Ts.foldl (fun s T => checkpointStep p positions kdeVals T s) s

/-- The density-grid positions as `__main__` builds them (lines 221–224):
the bounding box from `gridLimits` and `p`-fold `mgrid` with `args.bin`
points per axis. -/
def mainPositions (args : Args) (p : Nat) : List (List ℚ) :=
  gridPositions p (gridLimits args).1 (gridLimits args).2 args.bin

/-- The `__main__` pipeline after model loading, starting with
`ho_model.T = initT`: compute `T_to_plot`, run the roll-out block, run the
checkpoint loop, and finally call `plot_vae_decode` (line 293).
`plot_posterior_grid` is defined in the file but the pipeline never calls
it. -/
def mainPipeline (args : Args) (p initT : Nat) (kdeVals : Nat → List ℚ) : MainState :=
  let Ts := computeTtoPlot args initT
  let s0 : MainState :=
    { hoT := initT, mapList := [], fList := [], mcmcRuns := [], renderCalls := [] }
  let s1 := rolloutBlock (Ts.getLastD 0) s0
  let s2 := checkpointLoop p (mainPositions args p) kdeVals Ts s1
  { s2 with renderCalls := s2.renderCalls ++ [RenderCall.plotVaeDecode] }

/-- The node subtypes that `run_policy` filters on in the pyro trace. -/
inductive NodeSubtype
  | design_sample
  | observation_sample
  | latent_sample
  | other
deriving DecidableEq

/-- One node of a pyro execution trace: its subtype tag and its (detached)
tensor value, modelled as a flat rational vector. -/
structure TraceNode where
  subtype : NodeSubtype
  value : List ℚ
deriving DecidableEq

/-- `run_policy` (lines 26–60), applied to the trace obtained from the
(possibly theta-conditioned) model: collect the values of the nodes tagged
`design_sample`, those tagged `observation_sample`, and the concatenation
(`torch.cat(..., axis=-1)`) of those tagged `latent_sample`. -/
def run_policy (trace : List TraceNode) : List (List ℚ) × List (List ℚ) × List ℚ :=
  let designs := (trace.filter (fun nd => nd.subtype = NodeSubtype.design_sample)).map
    (fun nd => nd.value)
  let observations := (trace.filter (fun nd => nd.subtype = NodeSubtype.observation_sample)).map
    (fun nd => nd.value)
  let latents := ((trace.filter (fun nd => nd.subtype = NodeSubtype.latent_sample)).map
    (fun nd => nd.value)).flatten
  (designs, observations, latents)

/-- The per-step nodes of a horizon-`T` roll-out: for each `t < T`, one
design node with value `ξ t` and one observation node with value `y t`, in
execution order. -/
def modelSteps (ξ y : Nat → List ℚ) : Nat → List TraceNode
  | 0 => []
  | T + 1 =>
      modelSteps ξ y T ++
        [{ subtype := NodeSubtype.design_sample, value := ξ T },
         { subtype := NodeSubtype.observation_sample, value := y T }]

/-- Modelled from the spec: the implicit policy model `ho_model.model` is
not under `src/` (only this plotting script is); per the spec's roll-out
description, executing the policy with horizon `T` traces the realized
latent sample `θ` followed by an ordered sequence of `T` (design,
observation) pairs. -/
def modelTrace (θ : List ℚ) (ξ y : Nat → List ℚ) (T : Nat) : List TraceNode :=
  { subtype := NodeSubtype.latent_sample, value := θ } :: modelSteps ξ y T

/-- State of the VAE model: the `training` flag toggled by
`vae_model.eval()` (line 191) and the RNG stream consumed by stochastic
layers when training. -/
structure VAEState where
  training : Bool
  rng : Nat
deriving DecidableEq

/-- Modelled from the spec: the decoder `vae_model.decode` is not under
`src/`.  Per the spec it maps a latent parameter to image bytes; in
training mode stochastic layers consume the RNG stream, while after
`.eval()` the forward pass is a pure function of the latent.  `dec` is the
deterministic decoder network and `noisy` its behaviour under training-mode
stochasticity. -/
def decode (dec : List ℚ → List Nat) (noisy : Nat → List ℚ → List Nat)
    (s : VAEState) (θ : List ℚ) : List Nat × VAEState :=
  if s.training then (noisy s.rng θ, { s with rng := s.rng + 1 })
  else (dec θ, s)

/-- Names of files in the output directory that `plot_vae_decode` touches:
the scratch file `temp.png` (line 134) and the figure written by
`plt.savefig` (line 151), whose name encodes `p`, the estimator name, the
type label and the theta index. -/
inductive FName
  | temp
  | decodeFig (p : Nat) (mi ty : String) (idx : Nat)
  | other (s : String)
deriving DecidableEq

/-- The exceptions `plot_vae_decode` can raise: an `IndexError` from the
two-index access `axs[row, col]` at iteration `i` of the embedding loop
(line 137), an `IndexError` from the same access in the axis-hiding loop
(line 145), and a `NameError` at `os.remove(tmp_img_dir)` (line 149) when
the embedding loop never ran. -/
inductive PlotErr
  | subplotIndexError (i : Nat)
  | axesIndexError
  | nameError
deriving DecidableEq

/-- The embedding loop of `plot_vae_decode` (lines 131–142): at iteration
`i` it decodes, writes the scratch file `temp.png`, reads it back, and then
performs `axs[row, col].imshow(img)`.  With `nrow = 1` the `axs` array is
one-dimensional and the two-index access raises; with `nrow ≥ 2` it raises
iff `row = i // 4` is out of range. -/
def vdLoop (nrow : Nat) : Nat → List (List ℚ) → List FName → Except PlotErr (List FName)
  | _, [], fs => Except.ok fs
  | i, _ :: rest, fs =>
      let fs1 := FName.temp :: fs
      if nrow < 2 ∨ nrow ≤ i / 4 then Except.error (PlotErr.subplotIndexError i)
      else vdLoop nrow (i + 1) rest fs1

/-- `plot_vae_decode` (lines 127–151) as a transformer of the output
directory's file set: `nrow = len(T_list) // 4 + 1`; run the embedding
loop; hide the axes (`axs[r, c]` fails when `axs` is one-dimensional, i.e.
`nrow = 1`); `os.remove(tmp_img_dir)` (a `NameError` when no embedding was
processed, since `tmp_img_dir` is only bound inside the loop); finally
`plt.savefig` writes the figure. -/
def plot_vae_decode (fs : List FName) (embList : List (List ℚ)) (Tlist : List Nat)
    (p : Nat) (mi ty : String) (idx : Nat) : Except PlotErr (List FName) :=
  let nrow := Tlist.length / 4 + 1
  match vdLoop nrow 0 embList fs with
  | Except.error e => Except.error e
  | Except.ok fs1 =>
      if nrow < 2 then Except.error PlotErr.axesIndexError
      else if embList.isEmpty then Except.error PlotErr.nameError
      else Except.ok (FName.decodeFig p mi ty idx :: fs1.filter (fun f => f ≠ FName.temp))

/-! ### Helper lemmas -/

lemma listMax_mem (l : List ℚ) (h : l ≠ []) : listMax l ∈ l := by
  induction l with
  | nil => exact absurd rfl h
  | cons x xs ih =>
    cases xs with
    | nil => simp [listMax]
    | cons y ys =>
      simp only [listMax]
      rcases max_choice x (listMax (y :: ys)) with hm | hm
      · rw [hm]; exact List.mem_cons_self _ _
      · rw [hm]; exact List.mem_cons_of_mem _ (ih (by simp))

lemma le_listMax (l : List ℚ) (v : ℚ) (hv : v ∈ l) : v ≤ listMax l := by
  induction l with
  | nil => simp at hv
  | cons x xs ih =>
    cases xs with
    | nil =>
      simp at hv
      simp [listMax, hv]
    | cons y ys =>
      simp only [listMax]
      rcases List.mem_cons.mp hv with hm | hm
      · exact hm ▸ le_max_left _ _
      · exact le_trans (ih hm) (le_max_right _ _)

lemma argmaxIdx_lt (l : List ℚ) (h : l ≠ []) : argmaxIdx l < l.length :=
  List.indexOf_lt_length.mpr (listMax_mem l h)

lemma getD_argmaxIdx (l : List ℚ) (h : l ≠ []) : l.getD (argmaxIdx l) 0 = listMax l := by
  have hlt := argmaxIdx_lt l h
  rw [List.getD_eq_getElem]
  exact List.getElem_indexOf hlt

/-- The density value at the index `numpy.argmax` picks dominates every
density value in the array. -/
lemma getD_argmaxIdx_le (l : List ℚ) (v : ℚ) (hv : v ∈ l) :
    v ≤ l.getD (argmaxIdx l) 0 := by
  rw [getD_argmaxIdx l (List.ne_nil_of_mem hv)]
  exact le_listMax l v hv

lemma linspace_length (a b : ℚ) (n : Nat) : (linspace a b n).length = n := by
  unfold linspace
  split
  case isTrue h => simp [h]
  case isFalse h =>
    split
    case isTrue h1 => simp [h1]
    case isFalse h1 => simp

/-- Every axis value produced by the `mgrid` slice lies in the closed
bounding interval. -/
lemma linspace_mem_bounds (a b : ℚ) (n : Nat) (x : ℚ) (hab : a ≤ b)
    (hx : x ∈ linspace a b n) : a ≤ x ∧ x ≤ b := by
  unfold linspace at hx
  split at hx
  case isTrue h => simp at hx
  case isFalse h =>
    split at hx
    case isTrue h1 =>
      simp at hx
      exact ⟨le_of_eq hx.symm, hx.symm ▸ hab⟩
    case isFalse h1 =>
      simp only [List.mem_map, List.mem_range] at hx
      obtain ⟨i, hi, hxi⟩ := hx
      have h2 : 2 ≤ n := by omega
      have hden : (0 : ℚ) < (n : ℚ) - 1 := by
        have : (2 : ℚ) ≤ (n : ℚ) := by exact_mod_cast h2
        linarith
      have hstep : (0 : ℚ) ≤ (b - a) / ((n : ℚ) - 1) :=
        div_nonneg (by linarith) (le_of_lt hden)
      have hcast : (i : ℚ) ≤ (n : ℚ) - 1 := by
        have : (i : ℚ) + 1 ≤ (n : ℚ) := by exact_mod_cast hi
        linarith
      have hlow : (0 : ℚ) ≤ (i : ℚ) * ((b - a) / ((n : ℚ) - 1)) :=
        mul_nonneg (Nat.cast_nonneg i) hstep
      have hupp : (i : ℚ) * ((b - a) / ((n : ℚ) - 1)) ≤ ((n : ℚ) - 1) * ((b - a) / ((n : ℚ) - 1)) :=
        mul_le_mul_of_nonneg_right hcast hstep
      have hcancel : ((n : ℚ) - 1) * ((b - a) / ((n : ℚ) - 1)) = b - a :=
        mul_div_cancel₀ (b - a) (ne_of_gt hden)
      constructor
      · rw [← hxi] at *
        linarith
      · rw [← hxi]
        linarith [hupp.trans (le_of_eq hcancel)]

/-- Every coordinate of every grid position is an axis value. -/
lemma gridPositions_coord (p : Nat) (a b : ℚ) (n : Nat) :
    ∀ pt ∈ gridPositions p a b n, ∀ x ∈ pt, x ∈ linspace a b n := by
  induction p with
  | zero =>
    intro pt hpt x hx
    simp [gridPositions] at hpt
    subst hpt
    simp at hx
  | succ p ih =>
    intro pt hpt x hx
    simp only [gridPositions, List.mem_flatMap, List.mem_map] at hpt
    obtain ⟨x0, hx0, rest, hrest, hpt⟩ := hpt
    subst hpt
    rcases List.mem_cons.mp hx with h | h
    · exact h ▸ hx0
    · exact ih rest hrest x h

lemma gridPositions_length (p : Nat) (a b : ℚ) (n : Nat) :
    (gridPositions p a b n).length = n ^ p := by
  induction p with
  | zero => simp [gridPositions]
  | succ p ih =>
    simp only [gridPositions, List.length_flatMap, Function.comp_def, List.length_map, ih]
    rw [List.map_const', List.sum_replicate, smul_eq_mul, linspace_length]
    ring

lemma gridPositions_ne_nil (p : Nat) (a b : ℚ) (n : Nat) (hn : 1 ≤ n) :
    gridPositions p a b n ≠ [] := by
  have h := gridPositions_length p a b n
  intro hcon
  rw [hcon] at h
  simp at h
  have := Nat.pos_pow_of_pos p hn
  omega

/-- The selected MAP point is one of the grid positions. -/
lemma map_point_mem (positions : List (List ℚ)) (pdf : List ℚ)
    (hlen : pdf.length = positions.length) (hpos : positions ≠ []) :
    map_point positions pdf ∈ positions := by
  have hpdf : pdf ≠ [] := by
    intro hcon
    rw [hcon] at hlen
    exact hpos (List.eq_nil_of_length_eq_zero hlen.symm)
  have hlt : argmaxIdx pdf < positions.length := hlen ▸ argmaxIdx_lt pdf hpdf
  unfold map_point
  rw [List.getD_eq_getElem]
  exact List.getElem_mem hlt

lemma rolloutBlock_fields (lastT : Nat) (s : MainState) :
    (rolloutBlock lastT s).hoT = s.hoT ∧
    (rolloutBlock lastT s).mapList = s.mapList ∧
    (rolloutBlock lastT s).fList = s.fList ∧
    (rolloutBlock lastT s).mcmcRuns = s.mcmcRuns ∧
    (rolloutBlock lastT s).renderCalls = s.renderCalls ++ [RenderCall.plotTrace] := by
  simp [rolloutBlock]

lemma checkpointStep_fields (p : Nat) (positions : List (List ℚ)) (kdeVals : Nat → List ℚ)
    (T : Nat) (s : MainState) :
    (checkpointStep p positions kdeVals T s).hoT = s.hoT ∧
    (checkpointStep p positions kdeVals T s).mapList
      = s.mapList ++ [map_point positions (kdeVals T)] ∧
    (checkpointStep p positions kdeVals T s).fList = s.fList ++ [kdeVals T] ∧
    (checkpointStep p positions kdeVals T s).mcmcRuns = s.mcmcRuns ++ [mcmcConfig p] ∧
    (checkpointStep p positions kdeVals T s).renderCalls = s.renderCalls := by
  simp [checkpointStep]

lemma checkpointLoop_fields (p : Nat) (positions : List (List ℚ)) (kdeVals : Nat → List ℚ)
    (Ts : List Nat) : ∀ s : MainState,
    (checkpointLoop p positions kdeVals Ts s).hoT = s.hoT ∧
    (checkpointLoop p positions kdeVals Ts s).mapList
      = s.mapList ++ Ts.map (fun T => map_point positions (kdeVals T)) ∧
    (checkpointLoop p positions kdeVals Ts s).fList = s.fList ++ Ts.map (fun T => kdeVals T) ∧
    (checkpointLoop p positions kdeVals Ts s).mcmcRuns
      = s.mcmcRuns ++ Ts.map (fun _ => mcmcConfig p) ∧
    (checkpointLoop p positions kdeVals Ts s).renderCalls = s.renderCalls := by
  induction Ts with
  | nil => intro s; simp [checkpointLoop]
  | cons T Ts ih =>
    intro s
    have hstep := checkpointStep_fields p positions kdeVals T s
    have hrest := ih (checkpointStep p positions kdeVals T s)
    obtain ⟨h1, h2, h3, h4, h5⟩ := hstep
    obtain ⟨g1, g2, g3, g4, g5⟩ := hrest
    have hloop : checkpointLoop p positions kdeVals (T :: Ts) s
        = checkpointLoop p positions kdeVals Ts (checkpointStep p positions kdeVals T s) := rfl
    rw [hloop]
    refine ⟨g1.trans h1, ?_, ?_, ?_, g5.trans h5⟩
    · rw [g2, h2]; simp
    · rw [g3, h3]; simp
    · rw [g4, h4]; simp

lemma mainPipeline_fields (args : Args) (p initT : Nat) (kdeVals : Nat → List ℚ) :
    (mainPipeline args p initT kdeVals).hoT = initT ∧
    (mainPipeline args p initT kdeVals).mapList
      = (computeTtoPlot args initT).map
          (fun T => map_point (mainPositions args p) (kdeVals T)) ∧
    (mainPipeline args p initT kdeVals).fList
      = (computeTtoPlot args initT).map (fun T => kdeVals T) ∧
    (mainPipeline args p initT kdeVals).mcmcRuns
      = (computeTtoPlot args initT).map (fun _ => mcmcConfig p) ∧
    (mainPipeline args p initT kdeVals).renderCalls
      = [RenderCall.plotTrace, RenderCall.plotVaeDecode] := by
  unfold mainPipeline
  have hr := rolloutBlock_fields ((computeTtoPlot args initT).getLastD 0)
    { hoT := initT, mapList := [], fList := [], mcmcRuns := [], renderCalls := [] }
  obtain ⟨r1, r2, r3, r4, r5⟩ := hr
  have hl := checkpointLoop_fields p (mainPositions args p) kdeVals (computeTtoPlot args initT)
    (rolloutBlock ((computeTtoPlot args initT).getLastD 0)
      { hoT := initT, mapList := [], fList := [], mcmcRuns := [], renderCalls := [] })
  obtain ⟨l1, l2, l3, l4, l5⟩ := hl
  refine ⟨?_, ?_, ?_, ?_, ?_⟩
  · simpa [r1] using l1
  · simp only at l2 ⊢; rw [l2, r2]; simp
  · simp only at l3 ⊢; rw [l3, r3]; simp
  · simp only at l4 ⊢; rw [l4, r4]; simp
  · simp only at l5 ⊢; rw [l5, r5]; simp

lemma modelSteps_filter_counts (ξ y : Nat → List ℚ) (T : Nat) :
    ((modelSteps ξ y T).filter
        (fun nd => nd.subtype = NodeSubtype.design_sample)).length = T ∧
    ((modelSteps ξ y T).filter
        (fun nd => nd.subtype = NodeSubtype.observation_sample)).length = T := by
  induction T with
  | zero => simp [modelSteps]
  | succ T ih =>
    obtain ⟨ih1, ih2⟩ := ih
    simp [modelSteps, List.filter_append, ih1, ih2]

/-! ### Claim theorems -/

/-- C1: for every checkpoint `T`, the point appended to `map_list` is
`positions[:, pdf.argmax()]`: it is one of the grid positions, the density
value at the selected index dominates every density value evaluated over
the grid, and consequently each coordinate of every extracted MAP point
lies within the grid bounding box `[limits[0], limits[1]]`. -/
theorem c1_map_point_argmax_in_box (args : Args) (p initT : Nat)
    (kdeVals : Nat → List ℚ) (T : Nat)
    (hbin : 1 ≤ args.bin)
    (hlen : (kdeVals T).length = (mainPositions args p).length) :
    (mainPipeline args p initT kdeVals).mapList
      = (computeTtoPlot args initT).map
          (fun T2 => map_point (mainPositions args p) (kdeVals T2)) ∧
    map_point (mainPositions args p) (kdeVals T) ∈ mainPositions args p ∧
    (∀ v ∈ kdeVals T, v ≤ (kdeVals T).getD (argmaxIdx (kdeVals T)) 0) ∧
    (∀ x ∈ map_point (mainPositions args p) (kdeVals T),
      (gridLimits args).1 ≤ x ∧ x ≤ (gridLimits args).2) := by
  have hpos : mainPositions args p ≠ [] :=
    gridPositions_ne_nil p (gridLimits args).1 (gridLimits args).2 args.bin hbin
  have hmem : map_point (mainPositions args p) (kdeVals T) ∈ mainPositions args p :=
    map_point_mem (mainPositions args p) (kdeVals T) hlen hpos
  refine ⟨(mainPipeline_fields args p initT kdeVals).2.1, hmem, ?_, ?_⟩
  · exact fun v hv => getD_argmaxIdx_le (kdeVals T) v hv
  · intro x hx
    have hcoord : x ∈ linspace (gridLimits args).1 (gridLimits args).2 args.bin :=
      gridPositions_coord p (gridLimits args).1 (gridLimits args).2 args.bin
        (map_point (mainPositions args p) (kdeVals T)) hmem x hx
    have hab : (gridLimits args).1 ≤ (gridLimits args).2 := by
      unfold gridLimits
      norm_num
    exact linspace_mem_bounds (gridLimits args).1 (gridLimits args).2 args.bin x hab hcoord

/-- C1 witness: the theorem applied at a concrete run with `p = 1`,
`bin = 2` and density values `[2, 1]` at every checkpoint. -/
theorem c1_map_point_argmax_in_box_witness :
    (mainPipeline ⟨some 10, 10, 2, [], 0⟩ 1 30 (fun _ => [2, 1])).mapList
      = (computeTtoPlot ⟨some 10, 10, 2, [], 0⟩ 30).map
          (fun T2 => map_point (mainPositions ⟨some 10, 10, 2, [], 0⟩ 1)
            ((fun _ : Nat => [(2 : ℚ), 1]) T2)) ∧
    map_point (mainPositions ⟨some 10, 10, 2, [], 0⟩ 1) ((fun _ : Nat => [(2 : ℚ), 1]) 0)
      ∈ mainPositions ⟨some 10, 10, 2, [], 0⟩ 1 ∧
    (∀ v ∈ (fun _ : Nat => [(2 : ℚ), 1]) 0,
      v ≤ ((fun _ : Nat => [(2 : ℚ), 1]) 0).getD
        (argmaxIdx ((fun _ : Nat => [(2 : ℚ), 1]) 0)) 0) ∧
    (∀ x ∈ map_point (mainPositions ⟨some 10, 10, 2, [], 0⟩ 1) ((fun _ : Nat => [(2 : ℚ), 1]) 0),
      (gridLimits ⟨some 10, 10, 2, [], 0⟩).1 ≤ x ∧ x ≤ (gridLimits ⟨some 10, 10, 2, [], 0⟩).2) :=
  c1_map_point_argmax_in_box ⟨some 10, 10, 2, [], 0⟩ 1 30 (fun _ => [2, 1]) 0
    (by decide)
    (by simp [mainPositions, gridPositions_length])

/-- C2 counterexample: with `--limits 0 1` the parsed CLI limits are
`(0, 1)`, but the grid bounding box the script actually uses is the
hard-coded `(-1.5, 1.5)`, and the grid axis spans `[-1.5, 1.5]`, not
`[0, 1]`. -/
theorem c2_limits_flag_counterexample :
    cliLimits ⟨none, 10, 2, [0, 1], 0⟩ = [0, 1] ∧
    gridLimits ⟨none, 10, 2, [0, 1], 0⟩ ≠ ((0 : ℚ), (1 : ℚ)) ∧
    linspace (gridLimits ⟨none, 10, 2, [0, 1], 0⟩).1
        (gridLimits ⟨none, 10, 2, [0, 1], 0⟩).2 2
      = [-3/2, 3/2] := by
  refine ⟨rfl, ?_, ?_⟩
  · intro h
    rw [Prod.ext_iff] at h
    norm_num [gridLimits] at h
  · norm_num [gridLimits, linspace, List.range_succ]

/-- C2 amended: the grid bounding box is always the hard-coded
`(-1.5, 1.5)`; the parsed `--limits` value is overwritten on line 222, so
changing the flag never changes the density grid. -/
theorem c2_limits_flag_amended (args : Args) (p : Nat) (ls : List ℚ) :
    gridLimits args = ((-3 : ℚ)/2, (3 : ℚ)/2) ∧
    mainPositions args p = gridPositions p ((-3 : ℚ)/2) ((3 : ℚ)/2) args.bin ∧
    mainPositions ⟨args.tToPlot, args.tStep, args.bin, ls, args.thetaIndex⟩ p
      = mainPositions args p :=
  ⟨rfl, rfl, rfl⟩

/-- C3 counterexample: on a concrete run the pipeline's render calls do not
include `plot_posterior_grid`; only `plot_trace` and `plot_vae_decode` are
invoked. -/
theorem c3_render_counterexample :
    (mainPipeline ⟨some 0, 10, 2, [], 0⟩ 1 0 (fun _ => [1, 1])).renderCalls
      = [RenderCall.plotTrace, RenderCall.plotVaeDecode] ∧
    RenderCall.plotPosteriorGrid
      ∉ (mainPipeline ⟨some 0, 10, 2, [], 0⟩ 1 0 (fun _ => [1, 1])).renderCalls := by
  have h := (mainPipeline_fields ⟨some 0, 10, 2, [], 0⟩ 1 0 (fun _ => [1, 1])).2.2.2.2
  exact ⟨h, by rw [h]; decide⟩

/-- C3 amended: the rendering stage invokes the trace plotter and the
VAE-decode renderer, but never invokes the contour-grid renderer
`plot_posterior_grid`; the density grids accumulated in `f_list` are never
passed to it. -/
theorem c3_render_amended (args : Args) (p initT : Nat) (kdeVals : Nat → List ℚ) :
    (mainPipeline args p initT kdeVals).renderCalls
      = [RenderCall.plotTrace, RenderCall.plotVaeDecode] ∧
    RenderCall.plotPosteriorGrid ∉ (mainPipeline args p initT kdeVals).renderCalls ∧
    RenderCall.plotVaeDecode ∈ (mainPipeline args p initT kdeVals).renderCalls := by
  have h := (mainPipeline_fields args p initT kdeVals).2.2.2.2
  exact ⟨h, by rw [h]; decide, by rw [h]; decide⟩

/-- C4 counterexample: the warm-up length is not fixed across latent
dimensionalities: with `p = 1` it is 200 and with `p = 2` it is 400. -/
theorem c4_warmup_counterexample :
    (mcmcConfig 1).warmupSteps = 200 ∧ (mcmcConfig 2).warmupSteps = 400 ∧
    (mcmcConfig 1).warmupSteps ≠ (mcmcConfig 2).warmupSteps := by
  refine ⟨rfl, rfl, ?_⟩
  decide

/-- C4 amended: every checkpoint's posterior estimator uses the
gradient-based NUTS kernel with target acceptance probability 0.9, warm-up
length `200·p` (scaling with the latent dimensionality, not fixed), sample
count `250·p`, and 4 independent chains. -/
theorem c4_mcmc_config_amended (args : Args) (p initT : Nat) (kdeVals : Nat → List ℚ) :
    (mainPipeline args p initT kdeVals).mcmcRuns
      = (computeTtoPlot args initT).map (fun _ => mcmcConfig p) ∧
    (mcmcConfig p).kernel = MCMCKernel.NUTS ∧
    (mcmcConfig p).kernel.gradientBased = true ∧
    (mcmcConfig p).targetAcceptProb = 9/10 ∧
    (mcmcConfig p).numSamples = 250 * p ∧
    (mcmcConfig p).warmupSteps = 200 * p ∧
    (mcmcConfig p).numChains = 4 :=
  ⟨(mainPipeline_fields args p initT kdeVals).2.2.2.1, rfl, rfl, rfl, rfl, rfl, rfl⟩

/-- C5: with `--T-to-plot 30 --T-step 10` the checkpoint list is
`[0, 10, 20, 30]` and exactly 4 MAP points and 4 density grids are
produced; in general `map_list` and `f_list` end up with exactly one entry
per element of `T_to_plot`. -/
theorem c5_checkpoint_counts (args : Args) (p initT : Nat) (kdeVals : Nat → List ℚ) :
    (args.tToPlot = some 30 → args.tStep = 10 →
      computeTtoPlot args initT = [0, 10, 20, 30] ∧
      (mainPipeline args p initT kdeVals).mapList.length = 4 ∧
      (mainPipeline args p initT kdeVals).fList.length = 4) ∧
    (mainPipeline args p initT kdeVals).mapList.length
      = (computeTtoPlot args initT).length ∧
    (mainPipeline args p initT kdeVals).fList.length
      = (computeTtoPlot args initT).length := by
  obtain ⟨-, h2, h3, -, -⟩ := mainPipeline_fields args p initT kdeVals
  have hm : (mainPipeline args p initT kdeVals).mapList.length
      = (computeTtoPlot args initT).length := by rw [h2, List.length_map]
  have hf : (mainPipeline args p initT kdeVals).fList.length
      = (computeTtoPlot args initT).length := by rw [h3, List.length_map]
  refine ⟨fun h30 h10 => ?_, hm, hf⟩
  have hts : computeTtoPlot args initT = [0, 10, 20, 30] := by
    unfold computeTtoPlot
    rw [h30, h10]
    rfl
  exact ⟨hts, by rw [hm, hts]; rfl, by rw [hf, hts]; rfl⟩

/-- C5 witness: the theorem applied at a concrete run with
`--T-to-plot 30 --T-step 10`. -/
theorem c5_checkpoint_counts_witness :
    computeTtoPlot ⟨some 30, 10, 2, [], 0⟩ 0 = [0, 10, 20, 30] ∧
    (mainPipeline ⟨some 30, 10, 2, [], 0⟩ 1 0 (fun _ => [1, 1])).mapList.length = 4 ∧
    (mainPipeline ⟨some 30, 10, 2, [], 0⟩ 1 0 (fun _ => [1, 1])).fList.length = 4 :=
  (c5_checkpoint_counts ⟨some 30, 10, 2, [], 0⟩ 1 0 (fun _ => [1, 1])).1 rfl rfl

/-- C6 (the implicit policy model is modelled from the spec, see
`modelTrace`): a roll-out of horizon `T` yields exactly `T` designs and
exactly `T` observations from `run_policy`. -/
theorem c6_run_policy_lengths (θ : List ℚ) (ξ y : Nat → List ℚ) (T : Nat) :
    (run_policy (modelTrace θ ξ y T)).1.length = T ∧
    (run_policy (modelTrace θ ξ y T)).2.1.length = T := by
  obtain ⟨h1, h2⟩ := modelSteps_filter_counts ξ y T
  constructor
  · simp [run_policy, modelTrace, List.filter_cons, h1]
  · simp [run_policy, modelTrace, List.filter_cons, h2]

/-- C7 (the decoder is modelled from the spec, see `decode`): with the VAE
in eval mode, two successive decodes of the same latent give identical
image bytes, and decoding does not change the model state. -/
theorem c7_decode_idempotent (dec : List ℚ → List Nat) (noisy : Nat → List ℚ → List Nat)
    (s : VAEState) (θ : List ℚ) (h : s.training = false) :
    (decode dec noisy s θ).1 = (decode dec noisy (decode dec noisy s θ).2 θ).1 ∧
    (decode dec noisy s θ).2 = s := by
  simp [decode, h]

/-- C7 witness: the theorem applied to a concrete eval-mode decoder state. -/
theorem c7_decode_idempotent_witness :
    (decode (fun _ => [0]) (fun r _ => [r]) ⟨false, 5⟩ [1]).1
      = (decode (fun _ => [0]) (fun r _ => [r])
          ((decode (fun _ => [0]) (fun r _ => [r]) ⟨false, 5⟩ [1]).2) [1]).1 ∧
    (decode (fun _ => [0]) (fun r _ => [r]) ⟨false, 5⟩ [1]).2 = ⟨false, 5⟩ :=
  c7_decode_idempotent (fun _ => [0]) (fun r _ => [r]) ⟨false, 5⟩ [1] rfl

/-- C10: `ho_model.T` is restored after the roll-out block, after each
checkpoint iteration, after any run of the checkpoint loop, and hence at
the end of the pipeline it equals the value the model was loaded with. -/
theorem c10_hoT_restored :
    (∀ lastT s, (rolloutBlock lastT s).hoT = s.hoT) ∧
    (∀ p positions kdeVals T s, (checkpointStep p positions kdeVals T s).hoT = s.hoT) ∧
    (∀ p positions kdeVals Ts s, (checkpointLoop p positions kdeVals Ts s).hoT = s.hoT) ∧
    (∀ args p initT kdeVals, (mainPipeline args p initT kdeVals).hoT = initT) :=
  ⟨fun lastT s => (rolloutBlock_fields lastT s).1,
   fun p positions kdeVals T s => (checkpointStep_fields p positions kdeVals T s).1,
   fun p positions kdeVals Ts s => (checkpointLoop_fields p positions kdeVals Ts s).1,
   fun args p initT kdeVals => (mainPipeline_fields args p initT kdeVals).1⟩

/-- With fewer than 4 checkpoints `nrow = 1`, the subplot array is
one-dimensional, and the two-index access in the embedding loop raises at
its very first iteration. -/
lemma plot_vae_decode_short (fs : List FName) (e : List ℚ) (rest : List (List ℚ))
    (Tlist : List Nat) (p : Nat) (mi ty : String) (idx : Nat)
    (hlen : Tlist.length < 4) :
    plot_vae_decode fs (e :: rest) Tlist p mi ty idx
      = Except.error (PlotErr.subplotIndexError 0) := by
  have hnrow : Tlist.length / 4 + 1 = 1 := by omega
  simp only [plot_vae_decode, hnrow]
  have hloop : vdLoop 1 0 (e :: rest) fs = Except.error (PlotErr.subplotIndexError 0) := by
    simp [vdLoop]
  rw [hloop]

/-- C8: whenever `plot_vae_decode` is called with a non-empty
`embedding_list` and returns normally, the scratch file `temp.png` no
longer exists in the output directory. -/
theorem c8_temp_file_removed (fs : List FName) (embList : List (List ℚ)) (Tlist : List Nat)
    (p : Nat) (mi ty : String) (idx : Nat) (fs2 : List FName)
    (hemb : embList ≠ [])
    (hok : plot_vae_decode fs embList Tlist p mi ty idx = Except.ok fs2) :
    FName.temp ∉ fs2 := by
  obtain ⟨e, rest, rfl⟩ := List.exists_cons_of_ne_nil hemb
  simp only [plot_vae_decode] at hok
  cases h : vdLoop (Tlist.length / 4 + 1) 0 (e :: rest) fs with
  | error er => rw [h] at hok; simp at hok
  | ok fs1 =>
    rw [h] at hok
    simp only [List.isEmpty_cons] at hok
    by_cases h2 : Tlist.length / 4 + 1 < 2
    · rw [if_pos h2] at hok
      simp at hok
    · rw [if_neg h2, if_neg (by simp)] at hok
      have hfs2 : fs2 = FName.decodeFig p mi ty idx
          :: fs1.filter (fun f => f ≠ FName.temp) := by
        cases hok
        rfl
      rw [hfs2]
      intro hmem
      rcases List.mem_cons.mp hmem with hc | hc
      · exact FName.noConfusion hc
      · have := (List.mem_filter.mp hc).2
        simp at this

/-- C8 witness: a concrete successful call (4 checkpoints, one embedding)
after which the scratch file is gone. -/
theorem c8_temp_file_removed_witness :
    FName.temp ∉ [FName.decodeFig 2 "a" "b" 0, FName.other "x"] :=
  c8_temp_file_removed [FName.other "x"] [[0]] [0, 10, 20, 30] 2 "a" "b" 0
    [FName.decodeFig 2 "a" "b" 0, FName.other "x"] (by decide) (by rfl)

/-- C9: `plot_vae_decode` needs at least 4 checkpoints: with
`len(T_list) < 4` and a non-empty embedding list the two-index subplot
access raises an indexing error at the first iteration, and every normal
return implies `len(T_list) ≥ 4`. -/
theorem c9_requires_four_checkpoints :
    (∀ (fs : List FName) (embList : List (List ℚ)) (Tlist : List Nat)
        (p : Nat) (mi ty : String) (idx : Nat),
      Tlist.length < 4 → embList ≠ [] →
      plot_vae_decode fs embList Tlist p mi ty idx
        = Except.error (PlotErr.subplotIndexError 0)) ∧
    (∀ (fs : List FName) (embList : List (List ℚ)) (Tlist : List Nat)
        (p : Nat) (mi ty : String) (idx : Nat) (fs2 : List FName),
      plot_vae_decode fs embList Tlist p mi ty idx = Except.ok fs2 →
      4 ≤ Tlist.length) := by
  constructor
  · intro fs embList Tlist p mi ty idx hlen hemb
    obtain ⟨e, rest, rfl⟩ := List.exists_cons_of_ne_nil hemb
    exact plot_vae_decode_short fs e rest Tlist p mi ty idx hlen
  · intro fs embList Tlist p mi ty idx fs2 hok
    by_contra hlt
    push_neg at hlt
    cases embList with
    | nil =>
      have hnrow : Tlist.length / 4 + 1 = 1 := by omega
      simp only [plot_vae_decode, hnrow] at hok
      simp [vdLoop] at hok
    | cons e rest =>
      rw [plot_vae_decode_short fs e rest Tlist p mi ty idx hlt] at hok
      simp at hok

/-- C9 witness: a concrete call with a single checkpoint fails with the
indexing error at iteration 0. -/
theorem c9_requires_four_checkpoints_witness :
    plot_vae_decode [] [[0]] [0] 1 "" "" 0 = Except.error (PlotErr.subplotIndexError 0) :=
  c9_requires_four_checkpoints.1 [] [[0]] [0] 1 "" "" 0 (by decide) (by decide)

end LocFin
